import Mathlib

/-!
Verification of the native Whiteboard screen
(src/react/features/whiteboard/components/native/Whiteboard.tsx).

The file shallowly embeds the component's logic: the session-URI
resolution performed in render, the navigation guard _onNavigate, the
message bridge _onMessage and the load-error handler _onError.  Helper
modules imported by the component from elsewhere in the repository
(safeDecodeURIComponent, getWhiteboardInfoForURIString, getCollabServerUrl,
getCurrentConference, setupWhiteboard, WHITEBOARD_ID) are not part of the
provided sources; they are modelled from the specification, and each such
definition says so in its doc comment.  The JavaScript builtins used by the
component (JSON.parse, percent decoding/encoding) are modelled as total
Lean functions.
-/

/-- Hex value of a character, as used by percent-decoding: digits,
uppercase and lowercase hex letters. -/
def hexVal (c : Char) : Option Nat :=
  if ('0' ≤ c ∧ c ≤ '9') then some (c.toNat - 48)
  else if ('A' ≤ c ∧ c ≤ 'F') then some (c.toNat - 65 + 10)
  else if ('a' ≤ c ∧ c ≤ 'f') then some (c.toNat - 97 + 10)
  else none

/-- Model of the JavaScript builtin decodeURIComponent on a list of
characters: a percent sign must be followed by two hex digits and decodes
to the character with that code; any other character passes through.
Malformed percent escapes make the whole decode fail (the builtin throws
URIError there). -/
def decodeChars : List Char → Option (List Char)
  | [] => some []
  | c :: rest =>
    if c = '%' then
      match rest with
      | h :: l :: rest2 =>
        match hexVal h, hexVal l with
        | some a, some b =>
          Option.map (fun t => Char.ofNat (16 * a + b) :: t) (decodeChars rest2)
        | _, _ => none
      | _ => none
    else
      Option.map (fun t => c :: t) (decodeChars rest)

/-- Model of the JavaScript builtin decodeURIComponent on strings. -/
def decodeURIComponent (s : String) : Option String :=
  Option.map String.mk (decodeChars s.data)

/-- Modelled from the spec: safeDecodeURIComponent is imported from
base/util/uri, which is outside the provided sources.  Per the spec
(section 4.1), optional string inputs are percent-decoded before use and a
decoding failure must not throw: the function falls back to the raw
(un-decoded) value. -/
def safeDecodeURIComponent (s : String) : String :=
  match decodeURIComponent s with
  | some t => t
  | none => s

/-- Uppercase hex digit for a value below 16. -/
def hexDigit (n : Nat) : Char :=
  if n < 10 then Char.ofNat (48 + n) else Char.ofNat (55 + n)

/-- UTF-8 bytes of a character, each byte as a Nat below 256. -/
def utf8Bytes (c : Char) : List Nat :=
  let n := c.toNat
  if n < 128 then [n]
  else if n < 2048 then [192 + n / 64, 128 + n % 64]
  else if n < 65536 then [224 + n / 4096, 128 + (n / 64) % 64, 128 + n % 64]
  else [240 + n / 262144, 128 + (n / 4096) % 64, 128 + (n / 64) % 64, 128 + n % 64]

/-- Characters the JavaScript builtin encodeURIComponent leaves unescaped:
letters, digits and - _ . ! ~ * apostrophe ( ). -/
def isUnescapedURIChar (c : Char) : Bool :=
  c.isAlphanum ||
    c ∈ [Char.ofNat 45, Char.ofNat 95, Char.ofNat 46, Char.ofNat 33,
      Char.ofNat 126, Char.ofNat 42, Char.ofNat 39, Char.ofNat 40, Char.ofNat 41]

/-- Model of the JavaScript builtin encodeURIComponent: unescaped
characters pass through, every other character is replaced by the
percent-encoding of its UTF-8 bytes (uppercase hex). -/
def encodeURIComponent (s : String) : String :=
  String.mk (s.data.foldr
    (fun c acc =>
      if isUnescapedURIChar c then c :: acc
      else (utf8Bytes c).foldr
        (fun b acc2 => '%' :: hexDigit (b / 16) :: hexDigit (b % 16) :: acc2) acc)
    [])

/-- Whether a string ends in a slash. -/
def endsWithSlash (s : String) : Bool :=
  s.data.getLast? = some '/'

/-- The collaboration credentials carried by the whiteboard route
parameters: roomId and roomKey (src lines 53-57). -/
structure CollabDetails where
  roomId : String
  roomKey : String
deriving DecidableEq, Repr

/-- Modelled from the spec: getWhiteboardInfoForURIString is imported from
the whiteboard functions module, which is outside the provided sources.
Per the spec (section 4.1) it is a pure function of the app location, the
optional collaboration-server URL, the optional collaboration details and
the optional participant name; it yields the undefined sentinel (none)
when the minimum inputs (a location and a usable server URL) are missing,
and otherwise a single URI that encodes the server URL, the room
credentials when present (join) or none (create), and the participant name
when available, with each component percent-encoded. -/
def getWhiteboardInfoForURIString (locationHref : String)
    (collabServerUrl : Option String) (collabDetails : Option CollabDetails)
    (localParticipantName : Option String) : Option String :=
  if locationHref = "" ∨ collabServerUrl.getD ("") = "" then none
  else some (locationHref
    ++ (if endsWithSlash locationHref then ("") else ("/"))
    ++ "static/whiteboard.html?collabServerUrl="
    ++ encodeURIComponent (collabServerUrl.getD (""))
    ++ (match collabDetails with
        | some cd =>
          "&roomId=" ++ encodeURIComponent cd.roomId
            ++ "&roomKey=" ++ encodeURIComponent cd.roomKey
        | none => "")
    ++ (match localParticipantName with
        | some n => if n = "" then ("") else ("&name=") ++ encodeURIComponent n
        | none => ""))

/-- The route parameters of the Whiteboard screen (src lines 53-57); each
field is optional because the component reads them through optional
chaining. -/
structure RouteParams where
  collabDetails : Option CollabDetails
  collabServerUrl : Option String
  localParticipantName : Option String
deriving DecidableEq, Repr

/-- The current Jitsi conference, opaque to this component; only its
presence matters (the bridge reaches its metadata handler through optional
chaining). -/
inductive IJitsiConference where
  | mk
deriving DecidableEq, Repr

/-- The props of the Whiteboard component (src lines 23-58): the
state-derived collab server url, the optional current conference, the
window location href and the navigation route parameters. -/
structure WhiteboardProps where
  collabServerUrl : Option String
  conference : Option IJitsiConference
  locationHref : String
  route : RouteParams
deriving DecidableEq, Repr

/-- The URI computed in render (src lines 100-109): the route's
collabServerUrl and localParticipantName are passed through
safeDecodeURIComponent, collabDetails is passed as is. -/
def whiteboardUri (props : WhiteboardProps) : Option String :=
  getWhiteboardInfoForURIString props.locationHref
    (props.route.collabServerUrl.map safeDecodeURIComponent)
    props.route.collabDetails
    (props.route.localParticipantName.map safeDecodeURIComponent)

/-- The string handed to the WebView as its source (src line 104-109,
the expression with the nullish-coalescing fallback to the empty
string). -/
def sourceUri (props : WhiteboardProps) : String :=
  (whiteboardUri props).getD ("")

/-- The navigation guard _onNavigate (src lines 149-162): it rebuilds the
whiteboard URI from the RAW route parameters (no safeDecodeURIComponent)
and compares it with the requested url under strict equality; a string
compared with the undefined sentinel is never equal to it. -/
def _onNavigate (props : WhiteboardProps) (url : String) : Bool :=
  match getWhiteboardInfoForURIString props.locationHref
      props.route.collabServerUrl props.route.collabDetails
      props.route.localParticipantName with
  | some s => url = s
  | none => false

example : safeDecodeURIComponent ("a%20b") = "a b" := by decide
example : encodeURIComponent ("https://collab.example") = "https%3A%2F%2Fcollab.example" := by decide

/-- A JSON value as produced by the JavaScript builtin JSON.parse; numbers
are modelled by integers (the fragment sufficient for this component). -/
inductive JsonValue where
  | null
  | bool (b : Bool)
  | num (n : Int)
  | str (s : String)
  | arr (items : List JsonValue)
  | obj (fields : List (String × JsonValue))

/-- Left and right curly brace characters. -/
def lbrace : Char := Char.ofNat 123

/-- Right curly brace character. -/
def rbrace : Char := Char.ofNat 125

/-- Skip JSON whitespace. -/
def skipWs : List Char → List Char
  | c :: rest =>
    if c = ' ' ∨ c = '\t' ∨ c = '\n' ∨ c = '\r' then skipWs rest else c :: rest
  | [] => []

/-- Parse the body of a JSON string after the opening quote, returning the
decoded characters and the input after the closing quote.  The common
escapes are supported; unsupported escapes fail the parse. -/
def parseStringBody : List Char → Option (List Char × List Char)
  | [] => none
  | c :: rest =>
    if c = '"' then some ([], rest)
    else if c = '\\' then
      match rest with
      | e :: rest2 =>
        let esc : Option Char :=
          if e = '"' then some '"'
          else if e = '\\' then some '\\'
          else if e = '/' then some '/'
          else if e = 'n' then some '\n'
          else if e = 't' then some '\t'
          else if e = 'r' then some '\r'
          else if e = 'b' then some (Char.ofNat 8)
          else if e = 'f' then some (Char.ofNat 12)
          else none
        match esc with
        | some d =>
          Option.map (fun p => (d :: p.1, p.2)) (parseStringBody rest2)
        | none => none
      | [] => none
    else Option.map (fun p => (c :: p.1, p.2)) (parseStringBody rest)

/-- Take leading decimal digits. -/
def takeDigits : List Char → List Char × List Char
  | c :: rest =>
    if c.isDigit then
      let p := takeDigits rest
      (c :: p.1, p.2)
    else ([], c :: rest)
  | [] => ([], [])

/-- Decimal value of a digit list. -/
def digitsToNat (ds : List Char) : Nat :=
  ds.foldl (fun acc c => 10 * acc + (c.toNat - 48)) 0

mutual

/-- Fuel-indexed recursive-descent parser for a JSON value; returns the
value and the remaining input. -/
def parseValue : Nat → List Char → Option (JsonValue × List Char)
  | 0, _ => none
  | _ + 1, [] => none
  | fuel + 1, c :: rest =>
    if c = lbrace then
      match skipWs rest with
      | d :: rest2 =>
        if d = rbrace then some (JsonValue.obj [], rest2)
        else
          Option.map (fun p => (JsonValue.obj p.1, p.2))
            (parseObjectFields fuel (d :: rest2))
      | [] => none
    else if c = '[' then
      match skipWs rest with
      | d :: rest2 =>
        if d = ']' then some (JsonValue.arr [], rest2)
        else
          Option.map (fun p => (JsonValue.arr p.1, p.2))
            (parseArrayItems fuel (d :: rest2))
      | [] => none
    else if c = '"' then
      Option.map (fun p => (JsonValue.str (String.mk p.1), p.2))
        (parseStringBody rest)
    else if c = 't' then
      match rest with
      | 'r' :: 'u' :: 'e' :: rest2 => some (JsonValue.bool true, rest2)
      | _ => none
    else if c = 'f' then
      match rest with
      | 'a' :: 'l' :: 's' :: 'e' :: rest2 => some (JsonValue.bool false, rest2)
      | _ => none
    else if c = 'n' then
      match rest with
      | 'u' :: 'l' :: 'l' :: rest2 => some (JsonValue.null, rest2)
      | _ => none
    else if c = '-' then
      match takeDigits rest with
      | ([], _) => none
      | (ds, rest2) => some (JsonValue.num (-(digitsToNat ds : Int)), rest2)
    else if c.isDigit then
      match takeDigits (c :: rest) with
      | (ds, rest2) => some (JsonValue.num (digitsToNat ds : Int), rest2)
    else none

/-- Parse one or more comma-separated array items up to the closing
bracket. -/
def parseArrayItems : Nat → List Char → Option (List JsonValue × List Char)
  | 0, _ => none
  | fuel + 1, cs =>
    match parseValue fuel (skipWs cs) with
    | some (v, rest) =>
      match skipWs rest with
      | d :: rest2 =>
        if d = ',' then
          Option.map (fun p => (v :: p.1, p.2)) (parseArrayItems fuel rest2)
        else if d = ']' then some ([v], rest2)
        else none
      | [] => none
    | none => none

/-- Parse one or more comma-separated key/value fields up to the closing
brace. -/
def parseObjectFields : Nat → List Char → Option (List (String × JsonValue) × List Char)
  | 0, _ => none
  | fuel + 1, cs =>
    match skipWs cs with
    | c :: rest =>
      if c = '"' then
        match parseStringBody rest with
        | some (key, rest2) =>
          match skipWs rest2 with
          | d :: rest3 =>
            if d = ':' then
              match parseValue fuel (skipWs rest3) with
              | some (v, rest4) =>
                match skipWs rest4 with
                | e :: rest5 =>
                  if e = ',' then
                    Option.map (fun p => ((String.mk key, v) :: p.1, p.2))
                      (parseObjectFields fuel rest5)
                  else if e = rbrace then some ([(String.mk key, v)], rest5)
                  else none
                | [] => none
              | none => none
            else none
          | [] => none
        | none => none
      else none
    | [] => none

end

/-- Model of the JavaScript builtin JSON.parse: parse one value surrounded
by optional whitespace; anything else fails (the builtin throws
SyntaxError there). -/
def jsonParse (s : String) : Option JsonValue :=
  match parseValue (s.length + 1) (skipWs s.data) with
  | some (v, rest) => if skipWs rest = [] then some v else none
  | none => none

example : jsonParse ("\x7b\"roomId\":\"r1\",\"roomKey\":\"k1\"\x7d")
    = some (JsonValue.obj [("roomId", JsonValue.str ("r1")), ("roomKey", JsonValue.str ("k1"))]) := by rfl
example : jsonParse ("not json") = none := by rfl
example : jsonParse (" [1, true, null] ")
    = some (JsonValue.arr [JsonValue.num 1, JsonValue.bool true, JsonValue.null]) := by rfl

/-- JavaScript truthiness of a JSON value: null, false, 0 and the empty
string are falsy; every other value, including empty arrays and empty
objects, is truthy. -/
def jsTruthy : JsonValue → Bool
  | JsonValue.null => false
  | JsonValue.bool b => b
  | JsonValue.num n => n ≠ 0
  | JsonValue.str s => s ≠ ""
  | JsonValue.arr _ => true
  | JsonValue.obj _ => true

/-- Property access on a parsed JSON value through optional chaining, as
in the expressions reading roomId and roomKey: on an object, the value of
the last field with that key (JSON.parse keeps the last duplicate); on any
other value, the undefined sentinel. -/
def getProp (v : JsonValue) (key : String) : Option JsonValue :=
  match v with
  | JsonValue.obj fields => fields.reverse.lookup key
  | _ => none

/-- Truthiness of a possibly-undefined JavaScript value: undefined is
falsy. -/
def optTruthy (o : Option JsonValue) : Bool :=
  match o with
  | some v => jsTruthy v
  | none => false

/-- The validation gate of the message bridge (src line 174): both roomId
and roomKey must be truthy on the parsed payload. -/
def bridgeGate (v : JsonValue) : Bool :=
  optTruthy (getProp v ("roomId")) && optTruthy (getProp v ("roomKey"))

/-- The dialog components this screen can open. -/
inductive DialogComponent where
  | whiteboardErrorDialog
deriving DecidableEq, Repr

/-- The redux actions dispatched by this component.  setupWhiteboard is
imported from the whiteboard actions module, outside the provided sources;
modelled from the spec it is the host state-commit interface and carries
the validated collab details.  openDialog is the host dialog-opening
interface and carries the dialog component. -/
inductive ReduxAction where
  | setupWhiteboard (collabDetails : JsonValue)
  | openDialog (component : DialogComponent)

/-- The record published to the conference metadata channel (src lines
178-181): the state-derived collab server url and the validated collab
details. -/
structure BroadcastRecord where
  collabServerUrl : Option String
  collabDetails : JsonValue

/-- Modelled from the spec: WHITEBOARD_ID is imported from the whiteboard
constants module, outside the provided sources; it is the fixed well-known
topic key under which the broadcast record is published. -/
def WHITEBOARD_ID : String := "whiteboard"

/-- An observable effect of a handler, in the order the handler performs
them: a redux dispatch, or a setMetadata call on the conference metadata
handler. -/
inductive Effect where
  | dispatch (a : ReduxAction)
  | setMetadata (key : String) (record : BroadcastRecord)

/-- The JavaScript exceptions this component can let escape. -/
inductive JsError where
  | syntaxError
deriving DecidableEq, Repr

/-- The message bridge _onMessage (src lines 170-183): JSON.parse the raw
payload (a parse failure THROWS, there is no try/catch around it); if both
roomId and roomKey are truthy, dispatch setupWhiteboard with the parsed
details and then, when a current conference exists, publish the broadcast
record under WHITEBOARD_ID; otherwise do nothing. -/
def _onMessage (props : WhiteboardProps) (rawData : String) :
    Except JsError (List Effect) :=
  match jsonParse rawData with
  | none => Except.error JsError.syntaxError
  | some collabDetails =>
    Except.ok
      (if bridgeGate collabDetails then
        Effect.dispatch (ReduxAction.setupWhiteboard collabDetails) ::
          (match props.conference with
          | some _ =>
            [Effect.setMetadata WHITEBOARD_ID
              { collabServerUrl := props.collabServerUrl,
                collabDetails := collabDetails }]
          | none => [])
      else [])

/-- The load-error handler _onError (src lines 137-139): dispatch
openDialog with the whiteboard error dialog, and nothing else. -/
def _onError (_props : WhiteboardProps) : List Effect :=
  [Effect.dispatch (ReduxAction.openDialog DialogComponent.whiteboardErrorDialog)]

/-- The connection slice of the redux state (src lines 210-211): an
optional location URL whose href is itself optional, destructured with the
empty-string default. -/
structure LocationURL where
  href : Option String
deriving DecidableEq, Repr

/-- The slices of the redux state this component reads. -/
structure IReduxState where
  locationURL : Option LocationURL
  conference : Option IJitsiConference
  whiteboardCollabServerUrl : Option String
deriving DecidableEq, Repr

/-- Modelled from the spec: getCurrentConference is imported from the
base conference functions module, outside the provided sources; it returns
the current conference from the redux state, or undefined when there is
none. -/
def getCurrentConference (state : IReduxState) : Option IJitsiConference :=
  state.conference

/-- Modelled from the spec: getCollabServerUrl is imported from the
whiteboard functions module, outside the provided sources; it derives the
currently known collaboration-server URL from the host application's
shared redux state. -/
def getCollabServerUrl (state : IReduxState) : Option String :=
  state.whiteboardCollabServerUrl

/-- mapStateToProps (src lines 209-218) combined with the route prop the
navigator injects: conference and collabServerUrl are derived from the
redux state, locationHref is the connection location href with the
empty-string default. -/
def mapStateToProps (state : IReduxState) (route : RouteParams) :
    WhiteboardProps :=
  { collabServerUrl := getCollabServerUrl state,
    conference := getCurrentConference state,
    locationHref := (state.locationURL.bind LocationURL.href).getD (""),
    route := route }

/-- Whether an effect is a metadata-channel publish. -/
def isBroadcastEffect : Effect → Bool
  | Effect.setMetadata _ _ => true
  | _ => false

/-- Whether an effect is a host-state commit (a setupWhiteboard
dispatch). -/
def isCommitEffect : Effect → Bool
  | Effect.dispatch (ReduxAction.setupWhiteboard _) => true
  | _ => false

/-- The setMetadata effects of a handler trace. -/
def broadcastsOf (es : List Effect) : List Effect :=
  es.filter isBroadcastEffect

/-- The state-commit (setupWhiteboard dispatch) effects of a handler
trace. -/
def commitsOf (es : List Effect) : List Effect :=
  es.filter isCommitEffect

/-- Percent-decoding never turns a non-empty character list into an empty
one: every step of decodeChars emits at least one character. -/
theorem decodeChars_eq_some_nil {l : List Char} (h : decodeChars l = some []) :
    l = [] := by
  cases l with
  | nil => rfl
  | cons c rest =>
    exfalso
    rw [decodeChars.eq_def] at h
    by_cases hc : c = '%'
    · subst hc
      cases rest with
      | nil => simp at h
      | cons h1 t1 =>
        cases t1 with
        | nil => simp at h
        | cons h2 t2 =>
          cases hv1 : hexVal h1 <;> cases hv2 : hexVal h2 <;>
            simp [hv1, hv2, Option.map_eq_some'] at h
    · simp [hc, Option.map_eq_some'] at h

/-- safeDecodeURIComponent only yields the empty string on the empty
string. -/
theorem safeDecodeURIComponent_eq_empty {s : String}
    (h : safeDecodeURIComponent s = "") : s = "" := by
  cases hd : decodeChars s.data with
  | none =>
    have hval : safeDecodeURIComponent s = s := by
      rw [safeDecodeURIComponent.eq_def]
      unfold decodeURIComponent
      rw [hd]
      rfl
    rw [hval] at h
    exact h
  | some t =>
    have hval : safeDecodeURIComponent s = String.mk t := by
      rw [safeDecodeURIComponent.eq_def]
      unfold decodeURIComponent
      rw [hd]
      rfl
    rw [hval] at h
    have ht : t = [] := congrArg String.data h
    have hs : s.data = [] := decodeChars_eq_some_nil (ht ▸ hd)
    cases s with
    | mk l => exact congrArg String.mk hs

/-- Appending to a non-empty string stays non-empty. -/
theorem string_append_ne_empty {a : String} (b : String) (h : a ≠ "") :
    a ++ b ≠ "" := by
  obtain ⟨la⟩ := a
  obtain ⟨lb⟩ := b
  intro hab
  apply h
  have hdata : la ++ lb = ([] : List Char) := congrArg String.data hab
  have hla : la = [] := (List.append_eq_nil.mp hdata).1
  simp [hla]

/-- Every URI the resolver produces is non-empty. -/
theorem getWhiteboardInfoForURIString_ne_empty {loc : String}
    {csu : Option String} {cd : Option CollabDetails} {name : Option String}
    {s : String} (h : getWhiteboardInfoForURIString loc csu cd name = some s) :
    s ≠ "" := by
  unfold getWhiteboardInfoForURIString at h
  split at h
  · exact absurd h (by simp)
  · rename_i hguard
    have hloc : loc ≠ "" := fun he => hguard (Or.inl he)
    have := h
    injection this with hs
    subst hs
    exact string_append_ne_empty _
      (string_append_ne_empty _
        (string_append_ne_empty _
          (string_append_ne_empty _ (string_append_ne_empty _ hloc))))

/-- The resolver yields the undefined sentinel exactly when the location
or the (decoded) collab server url is missing or empty. -/
theorem getWhiteboardInfoForURIString_eq_none {loc : String}
    {csu : Option String} {cd : Option CollabDetails} {name : Option String}
    (h : getWhiteboardInfoForURIString loc csu cd name = none) :
    loc = "" ∨ csu.getD ("") = "" := by
  unfold getWhiteboardInfoForURIString at h
  split at h
  · assumption
  · exact absurd h (by simp)

/-- When the render-time resolution is the sentinel, the guard's own
recomputation from the raw route parameters is the sentinel as well. -/
theorem guardUri_eq_none_of_whiteboardUri_eq_none (props : WhiteboardProps)
    (h : whiteboardUri props = none) :
    getWhiteboardInfoForURIString props.locationHref
      props.route.collabServerUrl props.route.collabDetails
      props.route.localParticipantName = none := by
  rcases getWhiteboardInfoForURIString_eq_none h with hloc | hcsu
  · unfold getWhiteboardInfoForURIString
    simp [hloc]
  · unfold getWhiteboardInfoForURIString
    cases hr : props.route.collabServerUrl with
    | none => simp
    | some s =>
      have hs : safeDecodeURIComponent s = "" := by
        simpa [hr] using hcsu
      have : s = "" := safeDecodeURIComponent_eq_empty hs
      simp [this]

/-- Claim C6: for every combination of present and absent optional inputs,
URI resolution is total and the WebView source is always a string: render
hands the WebView either the non-empty resolved URI or the empty-string
sentinel, never the undefined value. -/
theorem sourceUri_total_nonempty_or_sentinel (props : WhiteboardProps) :
    (whiteboardUri props = none ∧ sourceUri props = "") ∨
      (∃ s, whiteboardUri props = some s ∧ s ≠ "" ∧ sourceUri props = s) := by
  cases h : whiteboardUri props with
  | none =>
    left
    exact ⟨rfl, by simp [sourceUri, h]⟩
  | some s =>
    right
    exact ⟨s, rfl, getWhiteboardInfoForURIString_ne_empty h,
      by simp [sourceUri, h]⟩

/-- Claim C8: when the resolver yields no URI (the WebView source is the
empty-string sentinel), the navigation guard rejects every requested URL,
the empty string included: the allowed set is empty, not the singleton of
the sentinel. -/
theorem onNavigate_rejects_all_when_unresolvable (props : WhiteboardProps)
    (url : String) (h : whiteboardUri props = none) :
    _onNavigate props url = false := by
  unfold _onNavigate
  rw [guardUri_eq_none_of_whiteboardUri_eq_none props h]

/-- Route parameters whose whiteboard session is unresolvable: no collab
server url at all. -/
def unresolvableProps : WhiteboardProps :=
  { collabServerUrl := none,
    conference := none,
    locationHref := "https://app.example/",
    route :=
      { collabDetails := none,
        collabServerUrl := none,
        localParticipantName := none } }

/-- Witness for claim C8 at a concrete unresolvable session: the resolver
yields none, the source is the sentinel, and the guard rejects the empty
string. -/
theorem onNavigate_rejects_all_when_unresolvable_witness :
    whiteboardUri unresolvableProps = none ∧
      sourceUri unresolvableProps = "" ∧
      _onNavigate unresolvableProps ("") = false :=
  ⟨by rfl, by rfl,
    onNavigate_rejects_all_when_unresolvable unresolvableProps ("") (by rfl)⟩

/-- Props as they occur in normal use per the external-interface contract:
the route parameters arrive percent-encoded (here the collab server url
contains percent escapes). -/
def encodedRouteProps : WhiteboardProps :=
  { collabServerUrl := some ("https://collab.example"),
    conference := some IJitsiConference.mk,
    locationHref := "https://app.example/",
    route :=
      { collabDetails := none,
        collabServerUrl := some ("https%3A%2F%2Fcollab.example"),
        localParticipantName := some ("Ana") } }

/-- Claim C1: the guard is claimed to accept exactly the canonical URI the
WebView loaded.  The code violates this: render decodes the route
parameters with safeDecodeURIComponent before resolving, while _onNavigate
rebuilds the URI from the still-encoded raw parameters, so with
percent-encoded route parameters (the documented normal case) the guard
rejects the very URI it loaded.  This theorem evaluates the code at such a
failing input. -/
theorem onNavigate_rejects_loaded_canonical_uri :
    sourceUri encodedRouteProps ≠ "" ∧
      _onNavigate encodedRouteProps (sourceUri encodedRouteProps) = false := by
  constructor
  · decide
  · decide

/-- Claim C7: every invocation of the load-error handler performs exactly
one dialog-open dispatch presenting the whiteboard error dialog and
nothing else; n successive invocations perform exactly n dialog-open
dispatches, with no state suppressing repetition. -/
theorem onError_opens_one_dialog_each_time (props : WhiteboardProps)
    (n : Nat) :
    _onError props
        = [Effect.dispatch
            (ReduxAction.openDialog DialogComponent.whiteboardErrorDialog)] ∧
      (List.replicate n (_onError props)).flatten
        = List.replicate n
            (Effect.dispatch
              (ReduxAction.openDialog DialogComponent.whiteboardErrorDialog)) := by
  refine ⟨rfl, ?_⟩
  induction n with
  | zero => rfl
  | succ k ih => simp [List.replicate_succ, ih, _onError]

/-- Props for exercising the bridge with a malformed payload. -/
def c2Props : WhiteboardProps :=
  { collabServerUrl := some ("https://collab.example"),
    conference := some IJitsiConference.mk,
    locationHref := "https://app.example/",
    route :=
      { collabDetails := none,
        collabServerUrl := none,
        localParticipantName := none } }

/-- Claim C2: a raw payload that is not valid JSON is claimed to be
discarded with no observable effect and no throw.  The code violates the
no-throw part: JSON.parse is called without any try/catch, so the
SyntaxError escapes _onMessage.  This theorem evaluates the code at such a
failing input: the handler ends in the thrown exception (and hence commits
nothing and publishes nothing). -/
theorem onMessage_throws_on_invalid_json :
    _onMessage c2Props ("not json") = Except.error JsError.syntaxError := by
  rfl

/-- Props without a current conference, for the schema-gate claim. -/
def c3Props : WhiteboardProps :=
  { collabServerUrl := some ("https://collab.example"),
    conference := none,
    locationHref := "https://app.example/",
    route :=
      { collabDetails := none,
        collabServerUrl := none,
        localParticipantName := none } }

/-- The parsed payload used in the C3 counterexample. -/
def c3Payload : JsonValue :=
  JsonValue.obj [("roomId", JsonValue.str ("r1")), ("roomKey", JsonValue.str ("k1"))]

/-- Counterexample to claim C3 as stated: a successfully parsed payload
with truthy roomId and roomKey, received while no current conference
exists, is committed but NOT broadcast — so "commits and broadcasts iff
both fields are truthy" fails in the only-if-direction-satisfied,
broadcast-missing sense. -/
theorem onMessage_accepted_but_not_broadcast :
    jsonParse ("\x7b\"roomId\":\"r1\",\"roomKey\":\"k1\"\x7d") = some c3Payload ∧
      bridgeGate c3Payload = true ∧
      _onMessage c3Props ("\x7b\"roomId\":\"r1\",\"roomKey\":\"k1\"\x7d")
        = Except.ok [Effect.dispatch (ReduxAction.setupWhiteboard c3Payload)] ∧
      broadcastsOf [Effect.dispatch (ReduxAction.setupWhiteboard c3Payload)] = [] :=
  ⟨rfl, rfl, rfl, rfl⟩

/-- Claim C3 as amended: for every successfully parsed payload, the bridge
commits exactly when both roomId and roomKey are truthy; when either is
missing or falsy the message is silently ignored with zero commits and
zero publishes; and a publish can only happen for a payload that passed
the gate (it additionally requires a current conference). -/
theorem onMessage_gate_commits_iff_truthy (props : WhiteboardProps)
    (rawData : String) (v : JsonValue) (effects : List Effect)
    (hp : jsonParse rawData = some v)
    (hok : _onMessage props rawData = Except.ok effects) :
    (commitsOf effects ≠ [] ↔ bridgeGate v = true) ∧
      (bridgeGate v = false → effects = []) ∧
      (broadcastsOf effects ≠ [] → bridgeGate v = true) := by
  unfold _onMessage at hok
  rw [hp] at hok
  simp only at hok
  by_cases hg : bridgeGate v = true
  · rw [if_pos hg] at hok
    injection hok with he
    subst he
    cases hconf : props.conference with
    | none =>
      refine ⟨⟨fun _ => hg, fun _ => ?_⟩, fun hfalse => ?_, fun hb => hg⟩
      · simp [commitsOf, isCommitEffect]
      · rw [hg] at hfalse
        exact absurd hfalse (by simp)
    | some c =>
      refine ⟨⟨fun _ => hg, fun _ => ?_⟩, fun hfalse => ?_, fun hb => hg⟩
      · simp [commitsOf, isCommitEffect]
      · rw [hg] at hfalse
        exact absurd hfalse (by simp)
  · rw [if_neg hg] at hok
    injection hok with he
    subst he
    refine ⟨⟨fun hc => absurd rfl hc, fun ht => absurd ht hg⟩,
      fun _ => rfl, fun hb => absurd rfl hb⟩

/-- Props with a current conference, for the amended-C3 witness. -/
def c3WitnessProps : WhiteboardProps :=
  { collabServerUrl := some ("https://collab.example"),
    conference := some IJitsiConference.mk,
    locationHref := "https://app.example/",
    route :=
      { collabDetails := none,
        collabServerUrl := none,
        localParticipantName := none } }

/-- Witness for the amended C3 at a concrete accepted payload: the gate
holds and the commit list is non-empty. -/
theorem onMessage_gate_commits_iff_truthy_witness :
    commitsOf [Effect.dispatch (ReduxAction.setupWhiteboard c3Payload),
        Effect.setMetadata WHITEBOARD_ID
          { collabServerUrl := some ("https://collab.example"),
            collabDetails := c3Payload }] ≠ [] :=
  ((onMessage_gate_commits_iff_truthy c3WitnessProps
    ("\x7b\"roomId\":\"r1\",\"roomKey\":\"k1\"\x7d") c3Payload
    [Effect.dispatch (ReduxAction.setupWhiteboard c3Payload),
      Effect.setMetadata WHITEBOARD_ID
        { collabServerUrl := some ("https://collab.example"),
          collabDetails := c3Payload }]
    (by rfl) (by rfl)).1).mpr (by rfl)

/-- Props without a current conference, for the broadcast claim. -/
def c4Props : WhiteboardProps :=
  { collabServerUrl := some ("https://collab.example"),
    conference := none,
    locationHref := "https://app.example/",
    route :=
      { collabDetails := none,
        collabServerUrl := none,
        localParticipantName := none } }

/-- The parsed payload used in the C4 counterexample and witness. -/
def c4Payload : JsonValue :=
  JsonValue.obj [("roomId", JsonValue.str ("a")), ("roomKey", JsonValue.str ("b"))]

/-- Counterexample to claim C4 as stated: a message accepted by the
validation gate, received while no current conference exists, produces
zero publishes to the metadata channel — the publish is not
unconditional. -/
theorem onMessage_accepted_zero_publishes :
    _onMessage c4Props ("\x7b\"roomId\":\"a\",\"roomKey\":\"b\"\x7d")
        = Except.ok [Effect.dispatch (ReduxAction.setupWhiteboard c4Payload)] ∧
      bridgeGate c4Payload = true ∧
      broadcastsOf [Effect.dispatch (ReduxAction.setupWhiteboard c4Payload)] = [] :=
  ⟨rfl, rfl, rfl⟩

/-- Claim C4 as amended: for every message accepted by the gate, the
bridge publishes exactly one BroadcastRecord under WHITEBOARD_ID carrying
the state-derived collab server url and the validated details when a
current conference exists, and publishes nothing when none does. -/
theorem onMessage_broadcast_iff_conference (props : WhiteboardProps)
    (rawData : String) (v : JsonValue) (effects : List Effect)
    (hp : jsonParse rawData = some v)
    (hg : bridgeGate v = true)
    (hok : _onMessage props rawData = Except.ok effects) :
    broadcastsOf effects
      = match props.conference with
        | some _ =>
          [Effect.setMetadata WHITEBOARD_ID
            { collabServerUrl := props.collabServerUrl, collabDetails := v }]
        | none => [] := by
  unfold _onMessage at hok
  rw [hp] at hok
  simp only at hok
  rw [if_pos hg] at hok
  injection hok with he
  subst he
  cases hconf : props.conference with
  | none => simp [broadcastsOf, isBroadcastEffect]
  | some c => simp [broadcastsOf, isBroadcastEffect]

/-- Props with a current conference, for the amended-C4 witness. -/
def c4WitnessProps : WhiteboardProps :=
  { collabServerUrl := some ("https://collab.example"),
    conference := some IJitsiConference.mk,
    locationHref := "https://app.example/",
    route :=
      { collabDetails := none,
        collabServerUrl := none,
        localParticipantName := none } }

/-- Witness for the amended C4 at a concrete accepted payload with a
current conference: exactly one publish, under WHITEBOARD_ID, with the
state-derived url and the validated details. -/
theorem onMessage_broadcast_iff_conference_witness :
    broadcastsOf [Effect.dispatch (ReduxAction.setupWhiteboard c4Payload),
        Effect.setMetadata WHITEBOARD_ID
          { collabServerUrl := some ("https://collab.example"),
            collabDetails := c4Payload }]
      = [Effect.setMetadata WHITEBOARD_ID
          { collabServerUrl := some ("https://collab.example"),
            collabDetails := c4Payload }] :=
  onMessage_broadcast_iff_conference c4WitnessProps
    ("\x7b\"roomId\":\"a\",\"roomKey\":\"b\"\x7d") c4Payload
    [Effect.dispatch (ReduxAction.setupWhiteboard c4Payload),
      Effect.setMetadata WHITEBOARD_ID
        { collabServerUrl := some ("https://collab.example"),
          collabDetails := c4Payload }]
    (by rfl) (by rfl) (by rfl)

/-- Claim C5: in the effect trace of any _onMessage invocation, every
metadata-channel publish is preceded by the host-state commit of the same
message: commit happens-before broadcast. -/
theorem onMessage_commit_before_broadcast (props : WhiteboardProps)
    (rawData : String) (effects : List Effect)
    (hok : _onMessage props rawData = Except.ok effects)
    (i : Nat) (hi : i < effects.length)
    (hb : isBroadcastEffect (effects.get ⟨i, hi⟩) = true) :
    ∃ j, ∃ hj : j < effects.length, j < i ∧
      isCommitEffect (effects.get ⟨j, hj⟩) = true := by
  unfold _onMessage at hok
  cases hp : jsonParse rawData with
  | none =>
    rw [hp] at hok
    exact absurd hok (by simp)
  | some v =>
    rw [hp] at hok
    simp only at hok
    by_cases hg : bridgeGate v = true
    · rw [if_pos hg] at hok
      injection hok with he
      subst he
      revert hi
      cases hconf : props.conference with
      | none =>
        intro hi hb
        exfalso
        have hi1 : i = 0 := by
          simp only [List.length_cons, List.length_nil] at hi
          omega
        subst hi1
        simp [List.get, isBroadcastEffect] at hb
      | some c =>
        intro hi hb
        rcases i with _ | _ | k
        · exfalso
          simp [List.get, isBroadcastEffect] at hb
        · exact ⟨0, by simp, Nat.zero_lt_one,
            by simp [List.get, isCommitEffect]⟩
        · exfalso
          simp only [List.length_cons, List.length_nil] at hi
          omega
    · rw [if_neg hg] at hok
      injection hok with he
      subst he
      exact absurd hi (by simp)

/-- Props with a current conference, for the C5 witness. -/
def c5Props : WhiteboardProps :=
  { collabServerUrl := some ("https://collab.example"),
    conference := some IJitsiConference.mk,
    locationHref := "https://app.example/",
    route :=
      { collabDetails := none,
        collabServerUrl := none,
        localParticipantName := none } }

/-- The parsed payload used in the C5 witness. -/
def c5Payload : JsonValue :=
  JsonValue.obj [("roomId", JsonValue.str ("r5")), ("roomKey", JsonValue.str ("k5"))]

/-- The effect trace of the C5 witness. -/
def c5Effects : List Effect :=
  [Effect.dispatch (ReduxAction.setupWhiteboard c5Payload),
    Effect.setMetadata WHITEBOARD_ID
      { collabServerUrl := some ("https://collab.example"),
        collabDetails := c5Payload }]

/-- Witness for C5 at a concrete accepted message with a conference: the
publish sits at index 1 and a commit precedes it. -/
theorem onMessage_commit_before_broadcast_witness :
    ∃ j, ∃ hj : j < c5Effects.length, j < 1 ∧
      isCommitEffect (c5Effects.get ⟨j, hj⟩) = true :=
  onMessage_commit_before_broadcast c5Props
    ("\x7b\"roomId\":\"r5\",\"roomKey\":\"k5\"\x7d") c5Effects
    (by rfl) 1 (by decide) (by rfl)

/-- The redux state used for the C9 witness: the state-derived collab
server url differs from the route parameter. -/
def c9State : IReduxState :=
  { locationURL := some { href := some ("https://app.example/") },
    conference := some IJitsiConference.mk,
    whiteboardCollabServerUrl := some ("https://state.example") }

/-- The route parameters used for the C9 witness. -/
def c9Route : RouteParams :=
  { collabDetails := none,
    collabServerUrl := some ("https://route.example"),
    localParticipantName := none }

/-- The parsed payload used in the C9 witness. -/
def c9Payload : JsonValue :=
  JsonValue.obj [("roomId", JsonValue.str ("r9")), ("roomKey", JsonValue.str ("k9"))]

/-- The record published in the C9 witness. -/
def c9Record : BroadcastRecord :=
  { collabServerUrl := some ("https://state.example"),
    collabDetails := c9Payload }

/-- Claim C9: every record the bridge publishes carries the
collabServerUrl derived from the redux state (getCollabServerUrl), not the
route parameter used to build the loaded session URI. -/
theorem broadcast_uses_state_collab_server_url (state : IReduxState)
    (route : RouteParams) (rawData : String) (effects : List Effect)
    (hok : _onMessage (mapStateToProps state route) rawData = Except.ok effects)
    (k : String) (r : BroadcastRecord)
    (hm : Effect.setMetadata k r ∈ effects) :
    r.collabServerUrl = getCollabServerUrl state := by
  unfold _onMessage at hok
  cases hp : jsonParse rawData with
  | none =>
    rw [hp] at hok
    exact absurd hok (by simp)
  | some v =>
    rw [hp] at hok
    simp only at hok
    by_cases hg : bridgeGate v = true
    · rw [if_pos hg] at hok
      injection hok with he
      subst he
      simp only [mapStateToProps, getCurrentConference] at hm
      cases hconf : state.conference with
      | none =>
        rw [hconf] at hm
        simp at hm
      | some c =>
        rw [hconf] at hm
        simp at hm
        rcases hm with ⟨hk, hr⟩
        subst hr
        rfl
    · rw [if_neg hg] at hok
      injection hok with he
      subst he
      simp at hm

/-- Witness for C9 at a concrete state whose collab server url differs
from the route parameter: the published record carries the state-derived
value. -/
theorem broadcast_uses_state_collab_server_url_witness :
    getCollabServerUrl c9State ≠ c9Route.collabServerUrl ∧
      c9Record.collabServerUrl = getCollabServerUrl c9State :=
  ⟨by decide,
    broadcast_uses_state_collab_server_url c9State c9Route
      ("\x7b\"roomId\":\"r9\",\"roomKey\":\"k9\"\x7d")
      [Effect.dispatch (ReduxAction.setupWhiteboard c9Payload),
        Effect.setMetadata WHITEBOARD_ID c9Record]
      (by rfl) WHITEBOARD_ID c9Record (by simp)⟩

/-- Props with a current conference, for the C10 theorem. -/
def c10Props : WhiteboardProps :=
  { collabServerUrl := some ("https://collab.example"),
    conference := some IJitsiConference.mk,
    locationHref := "https://app.example/",
    route :=
      { collabDetails := none,
        collabServerUrl := none,
        localParticipantName := none } }

/-- The parsed payload of the C10 theorem: roomId is a number and roomKey
is an (empty) object — truthy, but not strings. -/
def c10Payload : JsonValue :=
  JsonValue.obj [("roomId", JsonValue.num 7), ("roomKey", JsonValue.obj [])]

/-- Claim C10: the gate checks only truthiness, not stringness: a payload
whose roomId is the number 7 and whose roomKey is an empty object is
committed to host state and broadcast unchanged. -/
theorem onMessage_accepts_truthy_nonstring_credentials :
    jsonParse ("\x7b\"roomId\":7,\"roomKey\":\x7b\x7d\x7d") = some c10Payload ∧
      _onMessage c10Props ("\x7b\"roomId\":7,\"roomKey\":\x7b\x7d\x7d")
        = Except.ok
          [Effect.dispatch (ReduxAction.setupWhiteboard c10Payload),
            Effect.setMetadata WHITEBOARD_ID
              { collabServerUrl := some ("https://collab.example"),
                collabDetails := c10Payload }] :=
  ⟨rfl, rfl⟩
